import Mathlib

/-!
Verification of the stateful graph execution engine described by the
repository's design document, together with the node, router and
graph-building functions of the repository's Python modules
(`segment_1_foundations/02_langgraph_basics.py`,
`segment_1_foundations/03_first_stateful_agent.py`,
`segment_2_langgraph/01_complex_graphs.py`,
`segment_2_langgraph/02_state_persistence.py`,
`segment_2_langgraph/05_human_in_loop.py`).

The engine itself (state merge with per-field reducers, the step loop,
checkpointing, conditional routing, interrupts) is the LangGraph runtime,
which is not part of the repository's sources; it is modelled from the
design document (sections 4.1, 4.3, 4.4, 4.5).  The node functions,
routers, schemas and graph layouts are translated from the repository's
Python files.
-/

/-- A state value.  The repository's states hold strings, integers, floats
(modelled exactly as rationals), booleans and lists of strings. -/
inductive Value where
  | vStr (s : String)
  | vNat (n : Nat)
  | vRat (q : ℚ)
  | vBool (b : Bool)
  | vNone
  | vListStr (l : List String)
deriving DecidableEq

/-- An ordered mapping from field name to value.  Both full states and the
updates returned by nodes (which contain only the fields they touch) use
this shape. -/
abbrev StateMap := List (String × Value)

/-- Modelled from the spec: per-field merge policy (section 3): `OVERWRITE`
replaces the old value, `APPEND` concatenates sequences. -/
inductive Reducer where
  | overwrite
  | append
deriving DecidableEq

/-- A schema assigns each declared field its reducer. -/
abbrev Schema := List (String × Reducer)

/-- Modelled from the spec: run-time error taxonomy (section 7), restricted
to the errors the engine itself raises. -/
inductive EngineError where
  | routingError (lbl : String)
  | mergeSchemaError (fld : String)
deriving DecidableEq

/-- Modelled from the spec: run states (sections 3 and 4.3). -/
inductive RunStatus where
  | running
  | awaitingInterrupt
  | done
  | failed (e : EngineError)
deriving DecidableEq

/-- Look a field up in a state, first binding wins. -/
def lookupField : StateMap → String → Option Value
  | [], _ => none
  | (g, w) :: rest, f => if g == f then some w else lookupField rest f

/-- Replace a field's value in place (preserving the mapping's order), or
add it at the end if absent. -/
def setField : StateMap → String → Value → StateMap
  | [], f, v => [(f, v)]
  | (g, w) :: rest, f, v =>
    if g == f then (g, v) :: rest else (g, w) :: setField rest f v

/-- APPEND-reducer combination: the new sequence is concatenated after the
existing one; an absent prior value acts as the empty sequence. -/
def appendVal : Option Value → Value → Value
  | some (.vListStr xs), .vListStr ys => .vListStr (xs ++ ys)
  | _, v => v

/-- Read a natural-number field, defaulting to 0 (the Python sources use
`state.get(key, 0)`). -/
def getNat (s : StateMap) (f : String) : Nat :=
  match lookupField s f with
  | some (.vNat n) => n
  | _ => 0

/-- Read a string field, defaulting to the empty string. -/
def getStr (s : StateMap) (f : String) : String :=
  match lookupField s f with
  | some (.vStr t) => t
  | _ => ""

/-- Read a rational (float) field, defaulting to 0. -/
def getRat (s : StateMap) (f : String) : ℚ :=
  match lookupField s f with
  | some (.vRat q) => q
  | _ => 0

/-- Read a boolean field, defaulting to `false`. -/
def getBool (s : StateMap) (f : String) : Bool :=
  match lookupField s f with
  | some (.vBool b) => b
  | _ => false

/-- Modelled from the spec: `merge(current, partial)` (section 4.1).  For
each field of the update, in order, apply that field's reducer against the
current value; an update naming an undeclared field is a fatal
schema-violation error. -/
def merge (sch : Schema) (cur : StateMap) : StateMap → Except EngineError StateMap
  | [] => .ok cur
  | (f, v) :: rest =>
    match sch.lookup f with
    | none => .error (.mergeSchemaError f)
    | some .overwrite => merge sch (setField cur f v) rest
    | some .append => merge sch (setField cur f (appendVal (lookupField cur f) v)) rest

/-- Merge a list of node outputs into the state, in order. -/
def mergeAll (sch : Schema) (cur : StateMap) : List StateMap → Except EngineError StateMap
  | [] => .ok cur
  | o :: rest =>
    match merge sch cur o with
    | .error e => .error e
    | .ok s' => mergeAll sch s' rest

/-- Modelled from the spec: a compiled Plan (section 3): node registry,
static edges, conditional edges (router plus label map), interrupt points
and the field schema. -/
structure Plan where
  nodes : List (String × (StateMap → StateMap))
  edges : List (String × String)
  condEdges : List (String × ((StateMap → String) × List (String × String)))
  interrupts : List String
  schema : Schema

/-- The function registered for a node name; `START` is a pseudo-node that
updates nothing. -/
def nodeFn (p : Plan) (n : String) : StateMap → StateMap :=
  if n == "START" then fun _ => []
  else
    match p.nodes.lookup n with
    | some f => f
    | none => fun _ => []

/-- Modelled from the spec: resolve one executed node's outgoing edges
against the post-merge state (section 4.3 step 5): static edges add their
targets unconditionally; a conditional edge invokes its router and adds
exactly the mapped target, an unmapped label being a fatal routing error. -/
def resolveFor (p : Plan) (n : String) (s' : StateMap) : Except EngineError (List String) :=
  let staticTgts := (p.edges.filter (fun e => e.1 == n)).map (fun e => e.2)
  match p.condEdges.lookup n with
  | none => .ok staticTgts
  | some (r, lmap) =>
    match lmap.lookup (r s') with
    | some t => .ok (staticTgts ++ [t])
    | none => .error (.routingError (r s'))

/-- Resolve the outgoing edges of every executed node, in frontier order. -/
def resolveAll (p : Plan) (s' : StateMap) : List String → Except EngineError (List String)
  | [] => .ok []
  | n :: rest =>
    match resolveFor p n s' with
    | .error e => .error e
    | .ok ts =>
      match resolveAll p s' rest with
      | .error e => .error e
      | .ok rs => .ok (ts ++ rs)

/-- Deduplicate a frontier keeping the first occurrence of each name
(section 4.3 step 6, join semantics for fan-out/fan-in). -/
def dedupFirstAux (seen : List String) : List String → List String
  | [] => []
  | x :: rest =>
    if seen.contains x then dedupFirstAux seen rest
    else x :: dedupFirstAux (x :: seen) rest

/-- Deduplicate keeping first occurrences. -/
def dedupFirst (l : List String) : List String := dedupFirstAux [] l

/-- An execution configuration: current state and the frontier of node
names ready to run (in the order they became ready). -/
structure Config where
  state : StateMap
  frontier : List String
deriving DecidableEq

/-- Does the pending resume value cover node `a`? -/
def coveredBy (res : Option (String × StateMap)) (a : String) : Bool :=
  match res with
  | some (m, _) => a == m
  | none => false

/-- The update a frontier node contributes this step: the injected resume
value for a resumed interrupt node, otherwise the node function applied to
the step's pre-merge state. -/
def outputFor (p : Plan) (res : Option (String × StateMap)) (a : String) (s : StateMap) : StateMap :=
  match res with
  | some (m, v) => if a == m then v else nodeFn p a s
  | none => nodeFn p a s

/-- Outcome of one engine step. -/
inductive StepOut where
  | interrupted
  | failed (e : EngineError)
  | next (c : Config) (invoked : List String)

/-- Modelled from the spec: one step of the execution engine
(section 4.3): gate on interrupt points without a pending resume value,
invoke every non-`END` frontier node on the step's starting state, merge
the outputs in frontier order, resolve outgoing edges against the
post-merge state, and deduplicate the next frontier.  `invoked` lists the
node functions actually called. -/
def stepOnce (p : Plan) (res : Option (String × StateMap)) (c : Config) : StepOut :=
  let actives := c.frontier.filter (fun n => !(n == "END"))
  if actives.any (fun a => p.interrupts.contains a && !(coveredBy res a)) then
    .interrupted
  else
    match mergeAll p.schema c.state (actives.map (fun a => outputFor p res a c.state)) with
    | .error e => .failed e
    | .ok s' =>
      match resolveAll p s' actives with
      | .error e => .failed e
      | .ok tgts => .next ⟨s', dedupFirst tgts⟩ (actives.filter (fun a => !(coveredBy res a)))

/-- Modelled from the spec: an immutable checkpoint committed after every
step (sections 3 and 4.4). -/
structure Checkpoint where
  stepIdx : Nat
  state : StateMap
  frontier : List String
  status : RunStatus
deriving DecidableEq

/-- The result of (a bounded number of steps of) a run: final status,
state, frontier, step index, committed checkpoints, and the trace of node
invocations in order. -/
structure RunResult where
  status : RunStatus
  state : StateMap
  frontier : List String
  idx : Nat
  checkpoints : List Checkpoint
  trace : List String
deriving DecidableEq

/-- The status recorded in a committed checkpoint: `done` when the new
frontier is terminal, `running` otherwise. -/
def cpStatus (c : Config) : RunStatus :=
  if c.frontier = [] ∨ c.frontier = ["END"] then .done else .running

/-- Modelled from the spec: the step loop (section 4.3).  `fuel` bounds the
number of steps (the engine itself does not bound iteration; a result with
status `running` means the bound was reached first).  A step that reaches
an interrupt point persists an `AWAITING_INTERRUPT` checkpoint and stops; a
failing step commits nothing; a committed step appends its checkpoint and
the loop ends once the frontier is empty or exactly `END`. -/
def runLoop (p : Plan) (fuel : Nat) (c : Config) (res : Option (String × StateMap))
    (i : Nat) (cps : List Checkpoint) : RunResult :=
  match fuel with
  | 0 => ⟨.running, c.state, c.frontier, i, cps, []⟩
  | f + 1 =>
    if c.frontier = [] ∨ c.frontier = ["END"] then
      ⟨.done, c.state, c.frontier, i, cps, []⟩
    else
      match stepOnce p res c with
      | .interrupted =>
        ⟨.awaitingInterrupt, c.state, c.frontier, i,
          cps ++ [⟨i, c.state, c.frontier, .awaitingInterrupt⟩], []⟩
      | .failed e => ⟨.failed e, c.state, c.frontier, i, cps, []⟩
      | .next c' inv =>
        let r := runLoop p f c' none (i + 1)
          (cps ++ [⟨i + 1, c'.state, c'.frontier, cpStatus c'⟩])
        { r with trace := inv ++ r.trace }

/-- Modelled from the spec: `invoke` (section 6): a fresh run starts at
step 0 with frontier `{START}` and an empty checkpoint history. -/
def invokeFuel (p : Plan) (init : StateMap) (fuel : Nat) : RunResult :=
  runLoop p fuel ⟨init, ["START"]⟩ none 0 []

/-- Modelled from the spec: resumption (section 4.4): a fresh engine with
an existing thread's checkpoint history loads the latest checkpoint and
continues the step loop from its frontier. -/
def resumeLatest (p : Plan) (cps : List Checkpoint) (fuel : Nat) : Option RunResult :=
  match cps.getLast? with
  | none => none
  | some cp => some (runLoop p fuel ⟨cp.state, cp.frontier⟩ none cp.stepIdx cps)

/-- Replace a node's function by a constant output and clear its interrupt
marking: the plan in which the injected resume value *is* the node's own
output (used to state the interrupt/resume equivalence of section 4.5). -/
def injectNode (p : Plan) (n : String) (v : StateMap) : Plan :=
  { p with
    nodes := (n, fun _ => v) :: p.nodes,
    interrupts := p.interrupts.filter (fun m => !(m == n)) }

/-- The configuration produced by a successful step, if any. -/
def stepNext? : StepOut → Option Config
  | .next c _ => some c
  | _ => none

/-!
## Concrete graphs translated from the repository's sources
-/

/-- Python's `str.startswith`, modelled on the character sequence. -/
def pyStartsWith (s pre : String) : Bool :=
  pre.data.isPrefixOf s.data

/-- Python's `str.upper` (the repository's inputs are ASCII), modelled
character by character. -/
def pyUpper (s : String) : String :=
  ⟨s.data.map Char.toUpper⟩

/-- Python's `str.lower` (the repository's inputs are ASCII), modelled
character by character. -/
def pyLower (s : String) : String :=
  ⟨s.data.map Char.toLower⟩

/-- Exact rational addition, spelled through `mkRat` so that it evaluates
by reduction; `qadd_eq_add` below identifies it with `ℚ`'s addition.  (The
source computes quality scores with Python floats; at every value this
program reaches, IEEE double arithmetic and exact rational arithmetic
agree, so the model uses exact rationals.) -/
def qadd (a b : ℚ) : ℚ := mkRat (a.num * b.den + b.num * a.den) (a.den * b.den)

/-- Exact rational multiplication through `mkRat`; `qmul_eq_mul` below
identifies it with `ℚ`'s multiplication. -/
def qmul (a b : ℚ) : ℚ := mkRat (a.num * b.num) (a.den * b.den)

/-- Boolean rational strict comparison; `qlt_iff` identifies it with `<`. -/
def qlt (a b : ℚ) : Bool := Rat.blt a b

/-- Boolean rational comparison; `qle_iff` identifies it with `≤`. -/
def qle (a b : ℚ) : Bool := !(Rat.blt b a)

/-- `analyze_node` from `02_langgraph_basics.py`: appends an analysis line
to `steps`. -/
def analyze_node (s : StateMap) : StateMap :=
  let message := getStr s "message"
  [("steps", .vListStr
    ["analyze: Analyzed: '" ++ message ++ "' - Length: " ++
      toString message.length ++ " chars"])]

/-- `process_node` from `02_langgraph_basics.py`: uppercases the message. -/
def process_node (s : StateMap) : StateMap :=
  let message := getStr s "message"
  [("steps", .vListStr ["process: Converted to uppercase"]),
   ("result", .vStr (pyUpper message))]

/-- `validate_node` from `02_langgraph_basics.py`: records PASS/FAIL. -/
def validate_node (s : StateMap) : StateMap :=
  let result := getStr s "result"
  [("steps", .vListStr
    ["validate: " ++ (if result.length > 0 then "PASS" else "FAIL")])]

/-- The `SimpleState` schema of `02_langgraph_basics.py`: `steps` uses the
`operator.add` (APPEND) reducer, the other fields overwrite. -/
def simpleSchema : Schema :=
  [("message", .overwrite), ("steps", .append), ("result", .overwrite)]

/-- `build_simple_graph` from `02_langgraph_basics.py`:
`START -> analyze -> process -> validate -> END`. -/
def simplePlan : Plan :=
  { nodes := [("analyze", analyze_node), ("process", process_node),
              ("validate", validate_node)],
    edges := [("START", "analyze"), ("analyze", "process"),
              ("process", "validate"), ("validate", "END")],
    condEdges := [],
    interrupts := [],
    schema := simpleSchema }

/-- The initial state used by `demonstrate_simple_graph`. -/
def simpleInit : StateMap :=
  [("message", .vStr "Hello, LangGraph!"), ("steps", .vListStr []),
   ("result", .vStr "")]

/-- `classify_input` from `02_langgraph_basics.py`: classifies the message
as urgent / question / standard and logs the classification. -/
def classify_input (s : StateMap) : StateMap :=
  let message := getStr s "message"
  let input_type :=
    if pyStartsWith message "URGENT" then "urgent"
    else if pyStartsWith message "?" then "question"
    else "standard"
  [("input_type", .vStr input_type),
   ("steps", .vListStr ["classify: type=" ++ input_type])]

/-- `route_by_type` from `02_langgraph_basics.py`: returns the state's
`input_type` as the routing label. -/
def route_by_type (s : StateMap) : String :=
  getStr s "input_type"

/-- The conditional-edge label map registered for the `classify` node in
`build_conditional_graph`. -/
def condLabelMap : List (String × String) :=
  [("urgent", "urgent"), ("question", "question"), ("standard", "standard")]

/-- The `ConditionalState` schema of `02_langgraph_basics.py`. -/
def conditionalSchema : Schema :=
  [("input_type", .overwrite), ("message", .overwrite), ("steps", .append),
   ("result", .overwrite)]

/-- A one-node plan wiring `route_by_type` with the conditional label map
of `build_conditional_graph`; used to exhibit the engine's behaviour when
a router returns a label absent from its mapping. -/
def routeDemoPlan : Plan :=
  { nodes := [("mystery", fun _ => [])],
    edges := [("START", "mystery")],
    condEdges := [("mystery", (route_by_type, condLabelMap))],
    interrupts := [],
    schema := conditionalSchema }

/-- Modelled from the spec: the `analyze` node of the end-to-end example
(section 8): increments `iteration` and appends one entry to a log
field. -/
def exAnalyze (s : StateMap) : StateMap :=
  [("iteration", .vNat (getNat s "iteration" + 1)),
   ("log", .vListStr ["analyze"])]

/-- Modelled from the spec: the `decide` node of the end-to-end example
(section 8); it only routes, updating nothing. -/
def exDecide (_ : StateMap) : StateMap := []

/-- Modelled from the spec: the `output` node of the end-to-end example
(section 8). -/
def exOutput (_ : StateMap) : StateMap := []

/-- Modelled from the spec: the router of the end-to-end example
(section 8): to `analyze` when `iteration < 1`, else to `output`. -/
def exRouter (s : StateMap) : String :=
  if getNat s "iteration" < 1 then "analyze" else "output"

/-- Modelled from the spec: the Plan of the end-to-end example
(section 8): `START -> analyze -> decide -[cond]-> analyze | output ->
END`. -/
def examplePlan : Plan :=
  { nodes := [("analyze", exAnalyze), ("decide", exDecide),
              ("output", exOutput)],
    edges := [("START", "analyze"), ("analyze", "decide"),
              ("output", "END")],
    condEdges := [("decide", (exRouter,
      [("analyze", "analyze"), ("output", "output")]))],
    interrupts := [],
    schema := [("iteration", .overwrite), ("log", .append)] }

/-- The example's initial state `{iteration: 0}` with an empty log. -/
def exampleInit : StateMap :=
  [("iteration", .vNat 0), ("log", .vListStr [])]

/-- Modelled from the spec: the looping node of the cycle-termination
property (section 8): increments an iteration counter in state. -/
def loopNode (s : StateMap) : StateMap :=
  [("iteration", .vNat (getNat s "iteration" + 1))]

/-- Modelled from the spec: the cycle-termination router (section 8):
`iteration >= N -> finalize`, back to the looping node otherwise. -/
def loopRouter (n : Nat) (s : StateMap) : String :=
  if n ≤ getNat s "iteration" then "finalize" else "loop"

/-- Modelled from the spec: the self-loop graph of the cycle-termination
property (section 8), realised through the conditional edge's route back
to the looping node. -/
def loopPlan (n : Nat) : Plan :=
  { nodes := [("loop", loopNode), ("finalize", fun _ => [])],
    edges := [("START", "loop"), ("finalize", "END")],
    condEdges := [("loop", (loopRouter n,
      [("finalize", "finalize"), ("loop", "loop")]))],
    interrupts := [],
    schema := [("iteration", .overwrite)] }

/-- The loop graph's initial state: counter starting from 0. -/
def loopInit : StateMap := [("iteration", .vNat 0)]

/-- `generate_content` from `01_complex_graphs.py`: drafts on the first
iteration, refines afterwards, and increments `iteration`. -/
def generate_content (s : StateMap) : StateMap :=
  let iteration := getNat s "iteration"
  let content := getStr s "content"
  let newContent :=
    if iteration = 0 then "Draft: " ++ content
    else "Refined (v" ++ toString (iteration + 1) ++ "): " ++ content
  [("content", .vStr newContent), ("iteration", .vNat (iteration + 1))]

/-- The quality score of `evaluate_quality` in `01_complex_graphs.py`:
`min(0.5 + iteration * 0.2, 0.95)` (Python's `min(a, b)` returns `a` when
`a <= b`), in exact rational arithmetic; at every value this program
reaches, IEEE double arithmetic and exact rational arithmetic agree. -/
def qscore (iteration : Nat) : ℚ :=
  let base : ℚ := qadd (mkRat 1 2) (qmul (mkRat (Int.ofNat iteration) 1) (mkRat 1 5))
  if qle base (mkRat 19 20) then base else mkRat 19 20

/-- The feedback line `evaluate_quality` appends, chosen by the score's
bracket. -/
def qfeedback (iteration : Nat) : String :=
  if qlt (qscore iteration) (mkRat 7 10) then
    "Iteration " ++ toString iteration ++ ": Needs more detail"
  else if qlt (qscore iteration) (mkRat 9 10) then
    "Iteration " ++ toString iteration ++ ": Minor improvements needed"
  else "Iteration " ++ toString iteration ++ ": Quality acceptable"

/-- `evaluate_quality` from `01_complex_graphs.py`: stores the quality
score and appends one feedback line. -/
def evaluate_quality (s : StateMap) : StateMap :=
  let iteration := getNat s "iteration"
  [("quality_score", .vRat (qscore iteration)),
   ("feedback", .vListStr [qfeedback iteration])]

/-- `should_continue` from `01_complex_graphs.py`: finalize once the score
reaches 0.9 or the iteration cap is hit, refine otherwise. -/
def should_continue (s : StateMap) : String :=
  if qle (mkRat 9 10) (getRat s "quality_score") then "finalize"
  else if getNat s "max_iterations" ≤ getNat s "iteration" then "finalize"
  else "refine"

/-- `finalize_content` from `01_complex_graphs.py`. -/
def finalize_content (s : StateMap) : StateMap :=
  [("final_output", .vStr ("FINAL: " ++ getStr s "content")),
   ("feedback", .vListStr
     ["Completed after " ++ toString (getNat s "iteration") ++ " iterations"])]

/-- The `IterativeState` schema of `01_complex_graphs.py`: `feedback` uses
the APPEND reducer, all other fields overwrite. -/
def iterSchema : Schema :=
  [("content", .overwrite), ("quality_score", .overwrite),
   ("iteration", .overwrite), ("max_iterations", .overwrite),
   ("feedback", .append), ("final_output", .overwrite)]

/-- `build_iterative_graph` from `01_complex_graphs.py`:
`START -> generate -> evaluate -[cond]-> generate | finalize -> END`. -/
def iterPlan : Plan :=
  { nodes := [("generate", generate_content), ("evaluate", evaluate_quality),
              ("finalize", finalize_content)],
    edges := [("START", "generate"), ("generate", "evaluate"),
              ("finalize", "END")],
    condEdges := [("evaluate", (should_continue,
      [("refine", "generate"), ("finalize", "finalize")]))],
    interrupts := [],
    schema := iterSchema }

/-- The iterative graph's initial state for a given content string and
iteration cap. -/
def iterInit (content : String) (maxIter : Nat) : StateMap :=
  [("content", .vStr content), ("quality_score", .vRat 0),
   ("iteration", .vNat 0), ("max_iterations", .vNat maxIter),
   ("feedback", .vListStr []), ("final_output", .vStr "")]

/-- `step_one` from `02_state_persistence.py`. -/
def step_one (_ : StateMap) : StateMap :=
  [("messages", .vListStr ["Step 1 complete"]), ("step", .vNat 1)]

/-- `step_two` from `02_state_persistence.py`. -/
def step_two (_ : StateMap) : StateMap :=
  [("messages", .vListStr ["Step 2 complete"]), ("step", .vNat 2)]

/-- `step_three` from `02_state_persistence.py`. -/
def step_three (_ : StateMap) : StateMap :=
  [("messages", .vListStr ["Step 3 complete"]), ("step", .vNat 3),
   ("checkpoint_data", .vStr "Final data")]

/-- `build_persistent_graph` from `02_state_persistence.py`:
`START -> step_one -> step_two -> step_three -> END`. -/
def persistentPlan : Plan :=
  { nodes := [("step_one", step_one), ("step_two", step_two),
              ("step_three", step_three)],
    edges := [("START", "step_one"), ("step_one", "step_two"),
              ("step_two", "step_three"), ("step_three", "END")],
    condEdges := [],
    interrupts := [],
    schema := [("messages", .append), ("step", .overwrite),
               ("checkpoint_data", .overwrite)] }

/-- The persistence demo's initial state. -/
def persistentInit : StateMap :=
  [("messages", .vListStr []), ("step", .vNat 0),
   ("checkpoint_data", .vStr "")]

/-- Python's `needle in haystack` substring test: a contiguous
occurrence of the needle's characters. -/
def occursIn (needle haystack : String) : Bool :=
  decide (List.IsInfix needle.data haystack.data)

/-- `assess_risk` from `05_human_in_loop.py`. -/
def assess_risk (s : StateMap) : StateMap :=
  let action := pyLower (getStr s "action")
  let risk :=
    if occursIn "delete" action || occursIn "drop" action then "HIGH"
    else if occursIn "update" action || occursIn "modify" action then "MEDIUM"
    else "LOW"
  [("risk_level", .vStr risk), ("messages", .vListStr ["Risk assessed: " ++ risk])]

/-- `route_by_risk` from `05_human_in_loop.py`. -/
def route_by_risk (s : StateMap) : String :=
  if getStr s "risk_level" == "LOW" then "auto_approve" else "request_approval"

/-- `auto_approve` from `05_human_in_loop.py`. -/
def auto_approve (_ : StateMap) : StateMap :=
  [("approved", .vBool true), ("messages", .vListStr ["Auto-approved (low risk)"])]

/-- `execute_action` from `05_human_in_loop.py`. -/
def execute_action (s : StateMap) : StateMap :=
  if getBool s "approved" then
    [("executed", .vBool true), ("messages", .vListStr ["Action executed"])]
  else
    [("executed", .vBool false), ("messages", .vListStr ["Action skipped (not approved)"])]

/-- The `ApprovalState` schema of `05_human_in_loop.py`. -/
def approvalSchema : Schema :=
  [("action", .overwrite), ("risk_level", .overwrite),
   ("approved", .overwrite), ("executed", .overwrite), ("messages", .append)]

/-- `build_approval_graph` from `05_human_in_loop.py`, with
`request_approval` marked as an interrupt point: the design document
(sections 4.5 and 9) re-architects the source's blocking confirmation
prompt inside `request_approval` as the Interrupt Controller's
suspend/resume protocol, so the node's output (the approval decision) is
supplied by the caller as the resume value and its function is never
invoked by the engine. -/
def approvalPlan : Plan :=
  { nodes := [("assess", assess_risk), ("auto_approve", auto_approve),
              ("request_approval", fun _ => []), ("execute", execute_action)],
    edges := [("START", "assess"), ("auto_approve", "execute"),
              ("request_approval", "execute"), ("execute", "END")],
    condEdges := [("assess", (route_by_risk,
      [("auto_approve", "auto_approve"),
       ("request_approval", "request_approval")]))],
    interrupts := ["request_approval"],
    schema := approvalSchema }

/-- A configuration of the approval graph suspended at the interrupt
point: a high-risk action whose risk was just assessed. -/
def approvalCfg : Config :=
  ⟨[("action", .vStr "Delete user account"), ("risk_level", .vStr "HIGH"),
    ("approved", .vNone), ("executed", .vBool false),
    ("messages", .vListStr ["Risk assessed: HIGH"])],
   ["request_approval"]⟩

/-- The resume value a caller supplies for the approval interrupt. -/
def approvalResume : StateMap :=
  [("approved", .vBool true), ("messages", .vListStr ["Human approved"])]

/-- Modelled from the spec: a true static fan-out/fan-in graph
(section 4.3 steps 5-6): `split` has two static edges to independent
nodes `left` and `right`, which both route to the common `join` node. -/
def fanoutPlan : Plan :=
  { nodes := [("split", fun _ => []),
              ("left", fun _ => [("messages", .vListStr ["left"])]),
              ("right", fun _ => [("messages", .vListStr ["right"])]),
              ("join", fun _ => [("messages", .vListStr ["join"])])],
    edges := [("START", "split"), ("split", "left"), ("split", "right"),
              ("left", "join"), ("right", "join"), ("join", "END")],
    condEdges := [],
    interrupts := [],
    schema := [("messages", .append)] }

/-- The fan-out graph's configuration after `split` ran: both branch nodes
are ready in the same step. -/
def fanoutCfg : Config :=
  ⟨[("messages", .vListStr [])], ["left", "right"]⟩

/-- A configuration of the routing demo whose state carries a label the
conditional-edge mapping does not know. -/
def routeDemoCfg : Config :=
  ⟨[("input_type", .vStr "spam"), ("message", .vStr ""),
    ("steps", .vListStr []), ("result", .vStr "")], ["mystery"]⟩

deriving instance DecidableEq for Except

/-!
## Helper lemmas
-/

theorem lookupField_setField_self (s : StateMap) (f : String) (v : Value) :
    lookupField (setField s f v) f = some v := by
  induction s with
  | nil => simp [setField, lookupField]
  | cons hd tl ih =>
    obtain ⟨g, w⟩ := hd
    by_cases h : g == f
    · simp [setField, lookupField, h]
    · simp only [setField, lookupField, h, if_false, Bool.false_eq_true, ite_false]
      exact ih

theorem lookupField_setField_ne (s : StateMap) (f g : String) (v : Value)
    (h : f ≠ g) : lookupField (setField s f v) g = lookupField s g := by
  induction s with
  | nil => simp [setField, lookupField, h]
  | cons hd tl ih =>
    obtain ⟨a, w⟩ := hd
    by_cases ha : a == f
    · have haf : a = f := by simpa using ha
      subst haf
      simp [setField, lookupField, h]
    · simp only [setField, ha, Bool.false_eq_true, ite_false, lookupField]
      by_cases hag : a == g
      · simp [hag]
      · simp [hag, ih]

/-!
## C1: reducer semantics of merge
-/

/-- Claim C1: for every merge of a partial update into a state, a field
whose reducer is APPEND has the partial's sequence concatenated after the
existing sequence (order preserved), and a field whose reducer is
OVERWRITE has the partial's value replace the existing value, never
concatenated. -/
theorem merge_reducer_semantics (sch : Schema) (cur : StateMap) (f g : String)
    (xs ys : List String) (w : Value)
    (hf : sch.lookup f = some .append)
    (hx : lookupField cur f = some (.vListStr xs))
    (hg : sch.lookup g = some .overwrite) :
    (∃ s', merge sch cur [(f, .vListStr ys)] = .ok s' ∧
      lookupField s' f = some (.vListStr (xs ++ ys))) ∧
    (∃ s2, merge sch cur [(g, w)] = .ok s2 ∧ lookupField s2 g = some w) := by
  constructor
  · refine ⟨setField cur f (.vListStr (xs ++ ys)), ?_, ?_⟩
    · simp [merge, hf, hx, appendVal]
    · exact lookupField_setField_self cur f _
  · refine ⟨setField cur g w, ?_, ?_⟩
    · simp [merge, hg]
    · exact lookupField_setField_self cur g w

/-- Witness for C1, at the design document's own example: the APPEND field
`steps` on base `["a"]` and partial `["b","c"]` yields `["a","b","c"]`,
and the OVERWRITE field `result` is replaced. -/
theorem merge_reducer_semantics_witness :
    (∃ s', merge simpleSchema
        [("steps", .vListStr ["a"]), ("result", .vStr "old")]
        [("steps", .vListStr ["b", "c"])] = .ok s' ∧
      lookupField s' "steps" = some (.vListStr (["a"] ++ ["b", "c"]))) ∧
    (∃ s2, merge simpleSchema
        [("steps", .vListStr ["a"]), ("result", .vStr "old")]
        [("result", .vStr "new")] = .ok s2 ∧
      lookupField s2 "result" = some (.vStr "new")) :=
  merge_reducer_semantics simpleSchema
    [("steps", .vListStr ["a"]), ("result", .vStr "old")]
    "steps" "result" ["a"] ["b", "c"] (.vStr "new")
    (by decide) (by decide) (by decide)

/-!
## C2: the end-to-end example
-/

/-- Claim C2, counterexample: running the end-to-end example plan
(`START -> analyze -> decide`, conditional from `decide` routing to
`analyze` when `iteration < 1` and to `output` otherwise, `output -> END`)
on `{iteration: 0}` ends with status DONE, but the final `iteration` is 1
and the log holds one `"analyze"` entry, not `iteration == 2` with two
entries as claimed: the first `analyze` already raises `iteration` to 1
before the router ever runs, so the `iteration < 1` branch is never
taken. -/
theorem example_run_counterexample :
    (invokeFuel examplePlan exampleInit 10).status = .done ∧
    lookupField (invokeFuel examplePlan exampleInit 10).state "iteration" ≠
      some (.vNat 2) ∧
    lookupField (invokeFuel examplePlan exampleInit 10).state "log" ≠
      some (.vListStr ["analyze", "analyze"]) := by
  refine ⟨by decide, by decide, by decide⟩

/-- Claim C2 as amended: on the end-to-end example plan started from
`{iteration: 0}`, the run ends with status DONE, final `iteration` equal
to 1, and exactly one `"analyze"` entry in the log field (the `analyze`
node is invoked exactly once). -/
theorem example_run_amended :
    (invokeFuel examplePlan exampleInit 10).status = .done ∧
    lookupField (invokeFuel examplePlan exampleInit 10).state "iteration" =
      some (.vNat 1) ∧
    lookupField (invokeFuel examplePlan exampleInit 10).state "log" =
      some (.vListStr ["analyze"]) ∧
    (invokeFuel examplePlan exampleInit 10).trace.count "analyze" = 1 := by
  refine ⟨by decide, by decide, by decide, by decide⟩

/-!
## C10: the conditional graph's router is total
-/

/-- Claim C10: `classify_input` always produces an `input_type` among
exactly `"urgent"`, `"question"`, `"standard"`; these are exactly the keys
of the conditional-edge mapping registered for the `classify` node, so
after classify's update is merged, `route_by_type` always returns a mapped
label and the fatal routing-error branch is unreachable in this graph. -/
theorem classify_router_total (s s' : StateMap)
    (h : merge conditionalSchema s (classify_input s) = .ok s') :
    (condLabelMap.lookup (route_by_type s')).isSome ∧
    condLabelMap.map Prod.fst = ["urgent", "question", "standard"] := by
  refine ⟨?_, by decide⟩
  have hex : ∃ t, classify_input s =
      [("input_type", .vStr t), ("steps", .vListStr ["classify: type=" ++ t])] ∧
      (t = "urgent" ∨ t = "question" ∨ t = "standard") := by
    unfold classify_input
    by_cases h1 : pyStartsWith (getStr s "message") "URGENT" = true
    · exact ⟨"urgent", by simp [h1], Or.inl rfl⟩
    · by_cases h2 : pyStartsWith (getStr s "message") "?" = true
      · exact ⟨"question", by simp [h1, h2], Or.inr (Or.inl rfl)⟩
      · exact ⟨"standard", by simp [h1, h2], Or.inr (Or.inr rfl)⟩
  obtain ⟨t, hct, hcases⟩ := hex
  rw [hct] at h
  have hm : merge conditionalSchema s
      [("input_type", .vStr t), ("steps", .vListStr ["classify: type=" ++ t])] =
      .ok (setField (setField s "input_type" (.vStr t)) "steps"
        (appendVal (lookupField (setField s "input_type" (.vStr t)) "steps")
          (.vListStr ["classify: type=" ++ t]))) := rfl
  rw [hm] at h
  have hs' : s' = setField (setField s "input_type" (.vStr t)) "steps"
      (appendVal (lookupField (setField s "input_type" (.vStr t)) "steps")
        (.vListStr ["classify: type=" ++ t])) := (Except.ok.inj h).symm
  have hlook : lookupField s' "input_type" = some (.vStr t) := by
    rw [hs', lookupField_setField_ne _ _ _ _ (by decide),
      lookupField_setField_self]
  have hroute : route_by_type s' = t := by
    unfold route_by_type getStr
    rw [hlook]
  rw [hroute]
  rcases hcases with h | h | h <;> subst h <;> decide

/-- Witness for C10: an URGENT message routed through classify's merged
update. -/
theorem classify_router_total_witness :
    (condLabelMap.lookup (route_by_type
      (setField (setField
        [("input_type", Value.vStr ""),
         ("message", Value.vStr "URGENT: Server is down!"),
         ("steps", Value.vListStr []), ("result", Value.vStr "")]
        "input_type" (.vStr "urgent")) "steps"
        (.vListStr ["classify: type=urgent"])))).isSome ∧
    condLabelMap.map Prod.fst = ["urgent", "question", "standard"] :=
  classify_router_total
    [("input_type", Value.vStr ""),
     ("message", Value.vStr "URGENT: Server is down!"),
     ("steps", Value.vListStr []), ("result", Value.vStr "")] _ (by decide)

/-!
## C4: a routing error fails the run and commits nothing
-/

/-- Claim C4: in any step whose (single-node) frontier executes a node
with a conditional edge, if the router's label on the post-merge state is
not a key of the label map, the run transitions to FAILED with a
`RoutingError`, and the state and checkpoint history are exactly as they
were after the last successfully committed step. -/
theorem routing_error_no_commit (p : Plan) (c : Config) (n : String)
    (r : StateMap → String) (lmap : List (String × String)) (s' : StateMap)
    (f i : Nat) (cps : List Checkpoint)
    (hf : c.frontier = [n]) (hne : n ≠ "END") (hni : n ∉ p.interrupts)
    (hm : merge p.schema c.state (nodeFn p n c.state) = .ok s')
    (hc : p.condEdges.lookup n = some (r, lmap))
    (hmiss : lmap.lookup (r s') = none) :
    runLoop p (f + 1) c none i cps =
      ⟨.failed (.routingError (r s')), c.state, c.frontier, i, cps, []⟩ := by
  have hterm : ¬(c.frontier = [] ∨ c.frontier = ["END"]) := by
    simp [hf, hne]
  have hcont : p.interrupts.contains n = false := by simpa using hni
  have hstep : stepOnce p none c = .failed (.routingError (r s')) := by
    have hact : c.frontier.filter (fun m => !(m == "END")) = [n] := by
      simp [hf, hne]
    simp [stepOnce, hact, hcont, hni, coveredBy, outputFor, mergeAll, hm,
      resolveAll, resolveFor, hc, hmiss]
  simp only [runLoop]
  rw [if_neg hterm, hstep]

/-- Witness for C4: the conditional label map of `build_conditional_graph`
fed a state whose `input_type` is `"spam"`: the run fails with
`RoutingError "spam"` and no checkpoint is committed. -/
theorem routing_error_no_commit_witness :
    runLoop routeDemoPlan 1 routeDemoCfg none 0 [] =
      ⟨.failed (.routingError "spam"), routeDemoCfg.state,
        routeDemoCfg.frontier, 0, [], []⟩ :=
  routing_error_no_commit routeDemoPlan routeDemoCfg "mystery" route_by_type
    condLabelMap routeDemoCfg.state 0 0 [] rfl (by decide) (by decide)
    (by decide) rfl (by decide)

/-!
## C8: fan-out with a common downstream node joins once, fully merged
-/

/-- Claim C8: when a step's frontier holds two distinct upstream nodes
(reached by static fan-out) that each have a single static edge to the
same downstream node and no conditional edges, the step invokes both
upstream nodes, the next frontier is exactly the downstream node once
(deduplicated, not twice), and the state it will receive is the merge of
both upstream nodes' updates. -/
theorem fanout_join_once_merged (p : Plan) (c : Config) (b cn d : String)
    (s' : StateMap)
    (hbe : b ≠ "END") (hce : cn ≠ "END")
    (hf : c.frontier = [b, cn])
    (hib : b ∉ p.interrupts) (hic : cn ∉ p.interrupts)
    (hEb : (p.edges.filter (fun e => e.1 == b)).map (fun e => e.2) = [d])
    (hEc : (p.edges.filter (fun e => e.1 == cn)).map (fun e => e.2) = [d])
    (hCb : p.condEdges.lookup b = none) (hCc : p.condEdges.lookup cn = none)
    (hm : mergeAll p.schema c.state
      [nodeFn p b c.state, nodeFn p cn c.state] = .ok s') :
    stepOnce p none c = .next ⟨s', [d]⟩ [b, cn] := by
  have hcb : p.interrupts.contains b = false := by simpa using hib
  have hcc : p.interrupts.contains cn = false := by simpa using hic
  have hact : c.frontier.filter (fun m => !(m == "END")) = [b, cn] := by
    simp [hf, hbe, hce]
  simp [stepOnce, hact, hcb, hcc, hib, hic, coveredBy, outputFor, hm,
    resolveAll, resolveFor, hEb, hEc, hCb, hCc, dedupFirst, dedupFirstAux]

/-- Witness for C8: in the fan-out graph, after `split` fans out to `left`
and `right`, the step invokes both, the next frontier is `join` exactly
once, and the joined state carries both branches' appended messages. -/
theorem fanout_join_once_merged_witness :
    stepOnce fanoutPlan none fanoutCfg =
      .next ⟨[("messages", .vListStr ["left", "right"])], ["join"]⟩
        ["left", "right"] :=
  fanout_join_once_merged fanoutPlan fanoutCfg "left" "right" "join"
    [("messages", .vListStr ["left", "right"])]
    (by decide) (by decide) rfl (by decide) (by decide)
    (by decide) (by decide) rfl rfl (by decide)

/-!
## Step-loop equations and fuel lemmas
-/

theorem runLoop_zero (p : Plan) (c : Config) (res : Option (String × StateMap))
    (i : Nat) (cps : List Checkpoint) :
    runLoop p 0 c res i cps = ⟨.running, c.state, c.frontier, i, cps, []⟩ := rfl

theorem runLoop_term {p : Plan} {f : Nat} {c : Config}
    {res : Option (String × StateMap)} {i : Nat} {cps : List Checkpoint}
    (h : c.frontier = [] ∨ c.frontier = ["END"]) :
    runLoop p (f + 1) c res i cps = ⟨.done, c.state, c.frontier, i, cps, []⟩ := by
  simp only [runLoop]
  rw [if_pos h]

theorem runLoop_interrupted {p : Plan} {f : Nat} {c : Config}
    {res : Option (String × StateMap)} {i : Nat} {cps : List Checkpoint}
    (hterm : ¬(c.frontier = [] ∨ c.frontier = ["END"]))
    (h : stepOnce p res c = .interrupted) :
    runLoop p (f + 1) c res i cps =
      ⟨.awaitingInterrupt, c.state, c.frontier, i,
        cps ++ [⟨i, c.state, c.frontier, .awaitingInterrupt⟩], []⟩ := by
  simp only [runLoop]
  rw [if_neg hterm, h]

theorem runLoop_failed {p : Plan} {f : Nat} {c : Config}
    {res : Option (String × StateMap)} {i : Nat} {cps : List Checkpoint}
    {e : EngineError}
    (hterm : ¬(c.frontier = [] ∨ c.frontier = ["END"]))
    (h : stepOnce p res c = .failed e) :
    runLoop p (f + 1) c res i cps =
      ⟨.failed e, c.state, c.frontier, i, cps, []⟩ := by
  simp only [runLoop]
  rw [if_neg hterm, h]

theorem runLoop_next {p : Plan} {f : Nat} {c : Config}
    {res : Option (String × StateMap)} {i : Nat} {cps : List Checkpoint}
    {c' : Config} {inv : List String}
    (hterm : ¬(c.frontier = [] ∨ c.frontier = ["END"]))
    (h : stepOnce p res c = .next c' inv) :
    runLoop p (f + 1) c res i cps =
      (let r := runLoop p f c' none (i + 1)
        (cps ++ [⟨i + 1, c'.state, c'.frontier, cpStatus c'⟩])
       { r with trace := inv ++ r.trace }) := by
  simp only [runLoop]
  rw [if_neg hterm, h]

theorem runLoop_add (p : Plan) (m n : Nat) :
    ∀ (c : Config) (i : Nat) (cps : List Checkpoint),
      runLoop p (m + n) c none i cps =
        (let r := runLoop p m c none i cps
         if r.status = .running then
           (let r2 := runLoop p n ⟨r.state, r.frontier⟩ none r.idx r.checkpoints
            { r2 with trace := r.trace ++ r2.trace })
         else r) := by
  induction m with
  | zero =>
    intro c i cps
    simp [Nat.zero_add, runLoop_zero]
  | succ m ih =>
    intro c i cps
    have hmn : m + 1 + n = (m + n) + 1 := by omega
    rw [hmn]
    by_cases hterm : c.frontier = [] ∨ c.frontier = ["END"]
    · rw [runLoop_term hterm, runLoop_term hterm]
      simp
    · cases hstep : stepOnce p none c with
      | interrupted =>
        rw [runLoop_interrupted hterm hstep, runLoop_interrupted hterm hstep]
        simp
      | failed e =>
        rw [runLoop_failed hterm hstep, runLoop_failed hterm hstep]
        simp
      | next c' inv =>
        rw [runLoop_next hterm hstep, runLoop_next hterm hstep]
        simp only [ih]
        by_cases hst : (runLoop p m c' none (i + 1)
            (cps ++ [⟨i + 1, c'.state, c'.frontier, cpStatus c'⟩])).status = .running
        · simp [hst]
        · simp [hst]

theorem runLoop_last_checkpoint (p : Plan) (m : Nat) :
    ∀ (c : Config) (i : Nat) (cps : List Checkpoint),
      (∀ cp, cps.getLast? = some cp →
        cp.state = c.state ∧ cp.frontier = c.frontier ∧ cp.stepIdx = i) →
      (runLoop p m c none i cps).status = .running →
      ∀ cp, (runLoop p m c none i cps).checkpoints.getLast? = some cp →
        cp.state = (runLoop p m c none i cps).state ∧
        cp.frontier = (runLoop p m c none i cps).frontier ∧
        cp.stepIdx = (runLoop p m c none i cps).idx := by
  induction m with
  | zero =>
    intro c i cps hinv hst cp hcp
    rw [runLoop_zero] at hcp ⊢
    exact hinv cp hcp
  | succ m ih =>
    intro c i cps hinv hst cp hcp
    by_cases hterm : c.frontier = [] ∨ c.frontier = ["END"]
    · rw [runLoop_term hterm] at hst
      exact absurd hst (by simp)
    · cases hstep : stepOnce p none c with
      | interrupted =>
        rw [runLoop_interrupted hterm hstep] at hst
        exact absurd hst (by simp)
      | failed e =>
        rw [runLoop_failed hterm hstep] at hst
        exact absurd hst (by simp)
      | next c' inv =>
        rw [runLoop_next hterm hstep] at hst hcp ⊢
        simp only [] at hst hcp ⊢
        have hinv' : ∀ cp,
            (cps ++ [(⟨i + 1, c'.state, c'.frontier, cpStatus c'⟩ : Checkpoint)]).getLast? = some cp →
            cp.state = c'.state ∧ cp.frontier = c'.frontier ∧ cp.stepIdx = i + 1 := by
          intro cp0 h0
          rw [List.getLast?_concat] at h0
          obtain rfl := Option.some.inj h0
          exact ⟨rfl, rfl, rfl⟩
        exact ih c' (i + 1) _ hinv' hst cp hcp

/-!
## C5: resuming from the latest checkpoint refines uninterrupted invoke
-/

/-- Claim C5: running a Plan for K steps (run still in progress) and then
having a fresh engine resume from the latest persisted checkpoint produces
the same final status, state and checkpoint history as a single
uninterrupted invoke given the same total number of steps. -/
theorem resume_equals_invoke (p : Plan) (init : StateMap) (K F : Nat)
    (hK : (invokeFuel p init K).status = .running)
    (hcp : (invokeFuel p init K).checkpoints ≠ []) :
    ∃ rr, resumeLatest p (invokeFuel p init K).checkpoints F = some rr ∧
      rr.status = (invokeFuel p init (K + F)).status ∧
      rr.state = (invokeFuel p init (K + F)).state ∧
      rr.checkpoints = (invokeFuel p init (K + F)).checkpoints := by
  obtain ⟨cp, hlast⟩ : ∃ cp, (invokeFuel p init K).checkpoints.getLast? = some cp := by
    cases h : (invokeFuel p init K).checkpoints.getLast? with
    | none =>
      rw [List.getLast?_eq_none_iff] at h
      exact absurd h hcp
    | some cp => exact ⟨cp, rfl⟩
  have hfields := runLoop_last_checkpoint p K ⟨init, ["START"]⟩ 0 []
    (fun cp0 h0 => by simp at h0) hK cp hlast
  obtain ⟨h1, h2, h3⟩ := hfields
  refine ⟨runLoop p F ⟨cp.state, cp.frontier⟩ none cp.stepIdx
    (invokeFuel p init K).checkpoints, ?_, ?_, ?_, ?_⟩
  · simp [resumeLatest, hlast]
  · rw [h1, h2, h3]
    simp only [invokeFuel] at hK ⊢
    rw [runLoop_add p K F ⟨init, ["START"]⟩ 0 []]
    simp [hK]
  · rw [h1, h2, h3]
    simp only [invokeFuel] at hK ⊢
    rw [runLoop_add p K F ⟨init, ["START"]⟩ 0 []]
    simp [hK]
  · rw [h1, h2, h3]
    simp only [invokeFuel] at hK ⊢
    rw [runLoop_add p K F ⟨init, ["START"]⟩ 0 []]
    simp [hK]

/-- Witness for C5: the persistence demo graph run for 2 steps and resumed
from its latest checkpoint by a fresh loop reaches the same final status,
state and checkpoint history as the uninterrupted run. -/
theorem resume_equals_invoke_witness :
    ∃ rr, resumeLatest persistentPlan
        (invokeFuel persistentPlan persistentInit 2).checkpoints 10 = some rr ∧
      rr.status = (invokeFuel persistentPlan persistentInit (2 + 10)).status ∧
      rr.state = (invokeFuel persistentPlan persistentInit (2 + 10)).state ∧
      rr.checkpoints =
        (invokeFuel persistentPlan persistentInit (2 + 10)).checkpoints :=
  resume_equals_invoke persistentPlan persistentInit 2 10 (by decide) (by decide)

/-!
## C7: determinism of invoke
-/

/-- Claim C7: for a fixed Plan and fixed initial state, any two completed
invocations (the engine's nodes here are pure by construction) are equal:
in particular they yield identical final states and identical sequences of
committed checkpoints. -/
theorem invoke_deterministic (p : Plan) (init : StateMap) (r1 r2 : RunResult)
    (h1 : ∃ f1, (invokeFuel p init f1).status ≠ .running ∧ invokeFuel p init f1 = r1)
    (h2 : ∃ f2, (invokeFuel p init f2).status ≠ .running ∧ invokeFuel p init f2 = r2) :
    r1.state = r2.state ∧ r1.checkpoints = r2.checkpoints ∧ r1 = r2 := by
  have key : ∀ m k, (invokeFuel p init m).status ≠ .running →
      invokeFuel p init (m + k) = invokeFuel p init m := by
    intro m k hm
    simp only [invokeFuel] at hm ⊢
    rw [runLoop_add p m k ⟨init, ["START"]⟩ 0 []]
    simp [hm]
  obtain ⟨f1, hs1, he1⟩ := h1
  obtain ⟨f2, hs2, he2⟩ := h2
  have main : r1 = r2 := by
    rcases Nat.le_total f1 f2 with h | h
    · obtain ⟨k, rfl⟩ : ∃ k, f2 = f1 + k := ⟨f2 - f1, by omega⟩
      rw [← he1, ← he2, key f1 k hs1]
    · obtain ⟨k, rfl⟩ : ∃ k, f1 = f2 + k := ⟨f1 - f2, by omega⟩
      rw [← he1, ← he2, key f2 k hs2]
  exact ⟨by rw [main], by rw [main], main⟩

/-- Witness for C7: two completed invocations of the simple linear graph
(with different step bounds) agree on final state and checkpoints. -/
theorem invoke_deterministic_witness :
    (invokeFuel simplePlan simpleInit 10).state =
      (invokeFuel simplePlan simpleInit 11).state ∧
    (invokeFuel simplePlan simpleInit 10).checkpoints =
      (invokeFuel simplePlan simpleInit 11).checkpoints ∧
    invokeFuel simplePlan simpleInit 10 = invokeFuel simplePlan simpleInit 11 :=
  invoke_deterministic simplePlan simpleInit _ _
    ⟨10, by decide, rfl⟩ ⟨11, by decide, rfl⟩

/-!
## C6: interrupt points suspend the run; a resume value acts as the
node's own output
-/

/-- Claim C6: when the step loop reaches an interrupt-marked node with no
pending resume value, it stops with status `AWAITING_INTERRUPT` (persisting
a checkpoint with that status) without invoking any node (empty trace for
the suspended attempt); and once the caller supplies a resume value, the
step computes exactly the configuration it would compute if the injected
value were the node's own output (merged through the same field reducers,
hence visible to all downstream nodes), after which the loop continues as
for any committed step. -/
theorem interrupt_resume_semantics (p : Plan) (c : Config) (n : String)
    (v : StateMap)
    (hn : n ∈ p.interrupts) (hne : n ≠ "END") (hns : n ≠ "START")
    (hf : c.frontier = [n]) :
    (∀ f i cps, runLoop p (f + 1) c none i cps =
      ⟨.awaitingInterrupt, c.state, c.frontier, i,
        cps ++ [⟨i, c.state, c.frontier, .awaitingInterrupt⟩], []⟩) ∧
    stepNext? (stepOnce p (some (n, v)) c) =
      stepNext? (stepOnce (injectNode p n v) none c) ∧
    (∀ f i cps c' inv, stepOnce p (some (n, v)) c = .next c' inv →
      runLoop p (f + 1) c (some (n, v)) i cps =
        (let r := runLoop p f c' none (i + 1)
          (cps ++ [⟨i + 1, c'.state, c'.frontier, cpStatus c'⟩])
         { r with trace := inv ++ r.trace })) := by
  have hterm : ¬(c.frontier = [] ∨ c.frontier = ["END"]) := by
    simp [hf, hne]
  have hcont : p.interrupts.contains n = true := by simpa using hn
  have hact : c.frontier.filter (fun m => !(m == "END")) = [n] := by
    simp [hf, hne]
  refine ⟨?_, ?_, ?_⟩
  · intro f i cps
    apply runLoop_interrupted hterm
    have hgate : ([n].any fun a => p.interrupts.contains a && !(coveredBy none a)) =
        true := by
      simpa [coveredBy] using hn
    simp only [stepOnce, hact]
    rw [hgate]
    simp
  · have houtL : ([n].map (fun a => outputFor p (some (n, v)) a c.state)) = [v] := by
      simp [outputFor]
    have houtR :
        ([n].map (fun a => outputFor (injectNode p n v) none a c.state)) = [v] := by
      simp [outputFor, nodeFn, injectNode, hns, List.lookup]
    have hgateL :
        ([n].any fun a => p.interrupts.contains a && !(coveredBy (some (n, v)) a)) =
          false := by
      simp [coveredBy]
    have hgateR :
        ([n].any fun a =>
          (injectNode p n v).interrupts.contains a && !(coveredBy none a)) = false := by
      simp [injectNode, coveredBy]
    have hsch : (injectNode p n v).schema = p.schema := rfl
    have hres : ∀ s2, resolveAll (injectNode p n v) s2 [n] = resolveAll p s2 [n] :=
      fun s2 => rfl
    simp only [stepOnce, hact]
    rw [hgateL, hgateR]
    simp only [Bool.false_eq_true, if_false, houtL, houtR, hsch, hres]
    cases hm2 : mergeAll p.schema c.state [v] with
    | error e => simp [hm2, stepNext?]
    | ok s2 =>
      cases hr2 : resolveAll p s2 [n] with
      | error e => simp [hm2, hr2, stepNext?]
      | ok tg => simp [hm2, hr2, stepNext?]
  · intro f i cps c' inv h
    exact runLoop_next hterm h

/-- Witness for C6: the approval graph suspended at `request_approval`
stays suspended with an `AWAITING_INTERRUPT` checkpoint, and resuming with
the caller's approval value steps exactly as if `request_approval` itself
had returned that value. -/
theorem interrupt_resume_semantics_witness :
    (runLoop approvalPlan 3 approvalCfg none 0 [] =
      ⟨.awaitingInterrupt, approvalCfg.state, approvalCfg.frontier, 0,
        [] ++ [⟨0, approvalCfg.state, approvalCfg.frontier, .awaitingInterrupt⟩],
        []⟩) ∧
    stepNext? (stepOnce approvalPlan (some ("request_approval", approvalResume))
        approvalCfg) =
      stepNext? (stepOnce
        (injectNode approvalPlan "request_approval" approvalResume) none
        approvalCfg) := by
  have h := interrupt_resume_semantics approvalPlan approvalCfg
    "request_approval" approvalResume (by decide) (by decide) (by decide) rfl
  exact ⟨h.1 2 0 [], h.2.1⟩

/-!
## C3: cycle termination and the exact invocation count
-/

theorem loopPlan_run_aux (N : Nat) :
    ∀ d, 1 ≤ d → ∀ k i cps, k + d = N →
      (runLoop (loopPlan N) (d + 2) ⟨[("iteration", .vNat k)], ["loop"]⟩
        none i cps).status = .done ∧
      (runLoop (loopPlan N) (d + 2) ⟨[("iteration", .vNat k)], ["loop"]⟩
        none i cps).trace = List.replicate d "loop" ++ ["finalize"] := by
  intro d
  induction d with
  | zero => intro h1; exact absurd h1 (by omega)
  | succ d ih =>
    intro _ k i cps hk
    have hsh1 : stepOnce (loopPlan N) none ⟨[("iteration", Value.vNat k)], ["loop"]⟩ =
        match resolveAll (loopPlan N) [("iteration", Value.vNat (k + 1))] ["loop"] with
        | .error e => .failed e
        | .ok tgts =>
          .next ⟨[("iteration", Value.vNat (k + 1))], dedupFirst tgts⟩ ["loop"] := rfl
    have hsh2 : resolveAll (loopPlan N) [("iteration", Value.vNat (k + 1))] ["loop"] =
        match resolveFor (loopPlan N) "loop" [("iteration", Value.vNat (k + 1))] with
        | .error e => .error e
        | .ok ts => .ok (ts ++ []) := rfl
    have hsh3 : resolveFor (loopPlan N) "loop" [("iteration", Value.vNat (k + 1))] =
        match List.lookup (loopRouter N [("iteration", Value.vNat (k + 1))])
            [("finalize", "finalize"), ("loop", "loop")] with
        | some t => Except.ok ([] ++ [t])
        | none =>
          Except.error (.routingError
            (loopRouter N [("iteration", Value.vNat (k + 1))])) := rfl
    have hfuel : d + 1 + 2 = d + 2 + 1 := by omega
    rcases Nat.lt_or_ge (k + 1) N with hlt | hge
    · -- the router sends the run back to the looping node
      have hroute : loopRouter N [("iteration", Value.vNat (k + 1))] = "loop" := by
        show (if N ≤ k + 1 then "finalize" else "loop") = "loop"
        rw [if_neg (by omega)]
      have hstep : stepOnce (loopPlan N) none
          ⟨[("iteration", Value.vNat k)], ["loop"]⟩ =
          .next ⟨[("iteration", Value.vNat (k + 1))], ["loop"]⟩ ["loop"] := by
        rw [hsh1, hsh2, hsh3, hroute]
        rfl
      rw [hfuel, runLoop_next (by simp) hstep]
      have ih' := ih (by omega) (k + 1) (i + 1)
        (cps ++ [⟨i + 1, [("iteration", Value.vNat (k + 1))], ["loop"],
          cpStatus ⟨[("iteration", Value.vNat (k + 1))], ["loop"]⟩⟩]) (by omega)
      constructor
      · simpa using ih'.1
      · simpa [List.replicate_succ] using ih'.2
    · -- the router finalizes; this is the last loop invocation
      have hd0 : d = 0 := by omega
      subst hd0
      have hroute : loopRouter N [("iteration", Value.vNat (k + 1))] = "finalize" := by
        show (if N ≤ k + 1 then "finalize" else "loop") = "finalize"
        rw [if_pos (by omega)]
      have hstep : stepOnce (loopPlan N) none
          ⟨[("iteration", Value.vNat k)], ["loop"]⟩ =
          .next ⟨[("iteration", Value.vNat (k + 1))], ["finalize"]⟩ ["loop"] := by
        rw [hsh1, hsh2, hsh3, hroute]
        rfl
      rw [hfuel, runLoop_next (by simp) hstep]
      have hstep2 : stepOnce (loopPlan N) none
          ⟨[("iteration", Value.vNat (k + 1))], ["finalize"]⟩ =
          .next ⟨[("iteration", Value.vNat (k + 1))], ["END"]⟩ ["finalize"] := rfl
      rw [runLoop_next (by simp) hstep2]
      rw [runLoop_term (Or.inr rfl)]
      constructor
      · simp
      · simp [List.replicate_succ]

/-- Claim C3, counterexample: for N = 1, the self-loop graph whose node
increments the counter from 0 and whose conditional edge finalizes once
`iteration >= N` terminates after exactly 1 invocation of the looping
node, not N + 1 = 2: the invocation that raises the counter to N is the
last one, because the router inspects the post-merge state. -/
theorem loop_invocations_counterexample :
    (invokeFuel (loopPlan 1) loopInit 10).status = .done ∧
    (invokeFuel (loopPlan 1) loopInit 10).trace.count "loop" ≠ 1 + 1 := by
  refine ⟨by decide, by decide⟩

/-- Claim C3 as amended: for every N >= 1, the self-loop graph whose node
increments the counter from 0 and whose conditional edge routes to
finalize when `iteration >= N` (and back to the looping node otherwise)
terminates, with the looping node invoked exactly N times during the
run. -/
theorem loop_invocations_amended (N : Nat) (hN : 1 ≤ N) :
    (invokeFuel (loopPlan N) loopInit (N + 3)).status = .done ∧
    (invokeFuel (loopPlan N) loopInit (N + 3)).trace.count "loop" = N := by
  have hstep0 : stepOnce (loopPlan N) none ⟨loopInit, ["START"]⟩ =
      .next ⟨[("iteration", Value.vNat 0)], ["loop"]⟩ ["START"] := rfl
  have hfe : N + 3 = (N + 2) + 1 := by omega
  have aux := loopPlan_run_aux N N hN 0 (0 + 1)
    ([] ++ [⟨0 + 1, [("iteration", Value.vNat 0)], ["loop"],
      cpStatus ⟨[("iteration", Value.vNat 0)], ["loop"]⟩⟩]) (by omega)
  constructor
  · simp only [invokeFuel]
    rw [hfe, runLoop_next (by decide) hstep0]
    simpa using aux.1
  · simp only [invokeFuel]
    rw [hfe, runLoop_next (by decide) hstep0]
    have htr := aux.2
    simp only [Nat.zero_add, List.nil_append] at htr
    simp [htr, List.count_cons, List.count_append, List.count_replicate]

/-- Witness for the amended C3, at N = 3: the run terminates and the
looping node is invoked exactly 3 times. -/
theorem loop_invocations_amended_witness :
    (invokeFuel (loopPlan 3) loopInit (3 + 3)).status = .done ∧
    (invokeFuel (loopPlan 3) loopInit (3 + 3)).trace.count "loop" = 3 :=
  loop_invocations_amended 3 (by decide)

/-!
## C9: the iterative refinement run, for any content and any cap >= 2
-/

/-- Claim C9: for every initial content string and every
`max_iterations >= 2`, the iterative refinement graph terminates with
`generate` invoked exactly twice and final `quality_score` equal to 0.9
(= `mkRat 9 10`), independent of the content: the score is
`min(0.5 + iteration * 0.2, 0.95)`, which first reaches the 0.9 threshold
at iteration 2. -/
theorem iterative_refinement_two_generates (content : String) (m : Nat)
    (hm : 2 ≤ m) :
    (invokeFuel iterPlan (iterInit content m) 8).status = .done ∧
    (invokeFuel iterPlan (iterInit content m) 8).trace.count "generate" = 2 ∧
    lookupField (invokeFuel iterPlan (iterInit content m) 8).state
      "quality_score" = some (.vRat (qscore 2)) ∧
    (qscore 2 : ℚ) = 9/10 := by
  obtain ⟨m0, rfl⟩ : ∃ m0, m = m0 + 2 := ⟨m - 2, by omega⟩
  have h0 : stepOnce iterPlan none ⟨(iterInit content (m0 + 2)), ["START"]⟩ =
      .next ⟨(iterInit content (m0 + 2)), ["generate"]⟩ ["START"] := by
    simp only [stepOnce]
    rw [show (mergeAll iterPlan.schema (iterInit content (m0 + 2))
      (((["START"] : List String).filter (fun n => !(n == "END"))).map
        (fun a => outputFor iterPlan none a (iterInit content (m0 + 2))))) =
      .ok (iterInit content (m0 + 2)) from rfl]
    rfl
  have h1 : stepOnce iterPlan none ⟨(iterInit content (m0 + 2)), ["generate"]⟩ =
      .next ⟨[("content", Value.vStr ("Draft: " ++ content)),
        ("quality_score", Value.vRat 0), ("iteration", Value.vNat 1),
        ("max_iterations", Value.vNat (m0 + 2)),
        ("feedback", Value.vListStr []), ("final_output", Value.vStr "")], ["evaluate"]⟩ ["generate"] := by
    simp only [stepOnce]
    rw [show (mergeAll iterPlan.schema (iterInit content (m0 + 2))
      (((["generate"] : List String).filter (fun n => !(n == "END"))).map
        (fun a => outputFor iterPlan none a (iterInit content (m0 + 2))))) =
      .ok [("content", Value.vStr ("Draft: " ++ content)),
        ("quality_score", Value.vRat 0), ("iteration", Value.vNat 1),
        ("max_iterations", Value.vNat (m0 + 2)),
        ("feedback", Value.vListStr []), ("final_output", Value.vStr "")] from rfl]
    rfl
  have h2 : stepOnce iterPlan none ⟨[("content", Value.vStr ("Draft: " ++ content)),
        ("quality_score", Value.vRat 0), ("iteration", Value.vNat 1),
        ("max_iterations", Value.vNat (m0 + 2)),
        ("feedback", Value.vListStr []), ("final_output", Value.vStr "")], ["evaluate"]⟩ =
      .next ⟨[("content", Value.vStr ("Draft: " ++ content)),
        ("quality_score", Value.vRat (qscore 1)), ("iteration", Value.vNat 1),
        ("max_iterations", Value.vNat (m0 + 2)),
        ("feedback", Value.vListStr [qfeedback 1]),
        ("final_output", Value.vStr "")], ["generate"]⟩ ["evaluate"] := by
    simp only [stepOnce]
    rw [show (mergeAll iterPlan.schema [("content", Value.vStr ("Draft: " ++ content)),
        ("quality_score", Value.vRat 0), ("iteration", Value.vNat 1),
        ("max_iterations", Value.vNat (m0 + 2)),
        ("feedback", Value.vListStr []), ("final_output", Value.vStr "")]
      (((["evaluate"] : List String).filter (fun n => !(n == "END"))).map
        (fun a => outputFor iterPlan none a [("content", Value.vStr ("Draft: " ++ content)),
        ("quality_score", Value.vRat 0), ("iteration", Value.vNat 1),
        ("max_iterations", Value.vNat (m0 + 2)),
        ("feedback", Value.vListStr []), ("final_output", Value.vStr "")]))) =
      .ok [("content", Value.vStr ("Draft: " ++ content)),
        ("quality_score", Value.vRat (qscore 1)), ("iteration", Value.vNat 1),
        ("max_iterations", Value.vNat (m0 + 2)),
        ("feedback", Value.vListStr [qfeedback 1]),
        ("final_output", Value.vStr "")] from rfl]
    rfl
  have h3 : stepOnce iterPlan none ⟨[("content", Value.vStr ("Draft: " ++ content)),
        ("quality_score", Value.vRat (qscore 1)), ("iteration", Value.vNat 1),
        ("max_iterations", Value.vNat (m0 + 2)),
        ("feedback", Value.vListStr [qfeedback 1]),
        ("final_output", Value.vStr "")], ["generate"]⟩ =
      .next ⟨[("content", Value.vStr ("Refined (v" ++ toString (1 + 1) ++ "): " ++ ("Draft: " ++ content))),
        ("quality_score", Value.vRat (qscore 1)), ("iteration", Value.vNat 2),
        ("max_iterations", Value.vNat (m0 + 2)),
        ("feedback", Value.vListStr [qfeedback 1]),
        ("final_output", Value.vStr "")], ["evaluate"]⟩ ["generate"] := by
    simp only [stepOnce]
    rw [show (mergeAll iterPlan.schema [("content", Value.vStr ("Draft: " ++ content)),
        ("quality_score", Value.vRat (qscore 1)), ("iteration", Value.vNat 1),
        ("max_iterations", Value.vNat (m0 + 2)),
        ("feedback", Value.vListStr [qfeedback 1]),
        ("final_output", Value.vStr "")]
      (((["generate"] : List String).filter (fun n => !(n == "END"))).map
        (fun a => outputFor iterPlan none a [("content", Value.vStr ("Draft: " ++ content)),
        ("quality_score", Value.vRat (qscore 1)), ("iteration", Value.vNat 1),
        ("max_iterations", Value.vNat (m0 + 2)),
        ("feedback", Value.vListStr [qfeedback 1]),
        ("final_output", Value.vStr "")]))) =
      .ok [("content", Value.vStr ("Refined (v" ++ toString (1 + 1) ++ "): " ++ ("Draft: " ++ content))),
        ("quality_score", Value.vRat (qscore 1)), ("iteration", Value.vNat 2),
        ("max_iterations", Value.vNat (m0 + 2)),
        ("feedback", Value.vListStr [qfeedback 1]),
        ("final_output", Value.vStr "")] from rfl]
    rfl
  have h4 : stepOnce iterPlan none ⟨[("content", Value.vStr ("Refined (v" ++ toString (1 + 1) ++ "): " ++ ("Draft: " ++ content))),
        ("quality_score", Value.vRat (qscore 1)), ("iteration", Value.vNat 2),
        ("max_iterations", Value.vNat (m0 + 2)),
        ("feedback", Value.vListStr [qfeedback 1]),
        ("final_output", Value.vStr "")], ["evaluate"]⟩ =
      .next ⟨[("content", Value.vStr ("Refined (v" ++ toString (1 + 1) ++ "): " ++ ("Draft: " ++ content))),
        ("quality_score", Value.vRat (qscore 2)), ("iteration", Value.vNat 2),
        ("max_iterations", Value.vNat (m0 + 2)),
        ("feedback", Value.vListStr [qfeedback 1, qfeedback 2]),
        ("final_output", Value.vStr "")], ["finalize"]⟩ ["evaluate"] := by
    simp only [stepOnce]
    rw [show (mergeAll iterPlan.schema [("content", Value.vStr ("Refined (v" ++ toString (1 + 1) ++ "): " ++ ("Draft: " ++ content))),
        ("quality_score", Value.vRat (qscore 1)), ("iteration", Value.vNat 2),
        ("max_iterations", Value.vNat (m0 + 2)),
        ("feedback", Value.vListStr [qfeedback 1]),
        ("final_output", Value.vStr "")]
      (((["evaluate"] : List String).filter (fun n => !(n == "END"))).map
        (fun a => outputFor iterPlan none a [("content", Value.vStr ("Refined (v" ++ toString (1 + 1) ++ "): " ++ ("Draft: " ++ content))),
        ("quality_score", Value.vRat (qscore 1)), ("iteration", Value.vNat 2),
        ("max_iterations", Value.vNat (m0 + 2)),
        ("feedback", Value.vListStr [qfeedback 1]),
        ("final_output", Value.vStr "")]))) =
      .ok [("content", Value.vStr ("Refined (v" ++ toString (1 + 1) ++ "): " ++ ("Draft: " ++ content))),
        ("quality_score", Value.vRat (qscore 2)), ("iteration", Value.vNat 2),
        ("max_iterations", Value.vNat (m0 + 2)),
        ("feedback", Value.vListStr [qfeedback 1, qfeedback 2]),
        ("final_output", Value.vStr "")] from rfl]
    rfl
  have h5 : stepOnce iterPlan none ⟨[("content", Value.vStr ("Refined (v" ++ toString (1 + 1) ++ "): " ++ ("Draft: " ++ content))),
        ("quality_score", Value.vRat (qscore 2)), ("iteration", Value.vNat 2),
        ("max_iterations", Value.vNat (m0 + 2)),
        ("feedback", Value.vListStr [qfeedback 1, qfeedback 2]),
        ("final_output", Value.vStr "")], ["finalize"]⟩ =
      .next ⟨[("content", Value.vStr ("Refined (v" ++ toString (1 + 1) ++ "): " ++ ("Draft: " ++ content))),
        ("quality_score", Value.vRat (qscore 2)), ("iteration", Value.vNat 2),
        ("max_iterations", Value.vNat (m0 + 2)),
        ("feedback", Value.vListStr [qfeedback 1, qfeedback 2,
          "Completed after " ++ toString 2 ++ " iterations"]),
        ("final_output", Value.vStr ("FINAL: " ++ ("Refined (v" ++ toString (1 + 1) ++ "): " ++ ("Draft: " ++ content))))], ["END"]⟩ ["finalize"] := by
    simp only [stepOnce]
    rw [show (mergeAll iterPlan.schema [("content", Value.vStr ("Refined (v" ++ toString (1 + 1) ++ "): " ++ ("Draft: " ++ content))),
        ("quality_score", Value.vRat (qscore 2)), ("iteration", Value.vNat 2),
        ("max_iterations", Value.vNat (m0 + 2)),
        ("feedback", Value.vListStr [qfeedback 1, qfeedback 2]),
        ("final_output", Value.vStr "")]
      (((["finalize"] : List String).filter (fun n => !(n == "END"))).map
        (fun a => outputFor iterPlan none a [("content", Value.vStr ("Refined (v" ++ toString (1 + 1) ++ "): " ++ ("Draft: " ++ content))),
        ("quality_score", Value.vRat (qscore 2)), ("iteration", Value.vNat 2),
        ("max_iterations", Value.vNat (m0 + 2)),
        ("feedback", Value.vListStr [qfeedback 1, qfeedback 2]),
        ("final_output", Value.vStr "")]))) =
      .ok [("content", Value.vStr ("Refined (v" ++ toString (1 + 1) ++ "): " ++ ("Draft: " ++ content))),
        ("quality_score", Value.vRat (qscore 2)), ("iteration", Value.vNat 2),
        ("max_iterations", Value.vNat (m0 + 2)),
        ("feedback", Value.vListStr [qfeedback 1, qfeedback 2,
          "Completed after " ++ toString 2 ++ " iterations"]),
        ("final_output", Value.vStr ("FINAL: " ++ ("Refined (v" ++ toString (1 + 1) ++ "): " ++ ("Draft: " ++ content))))] from rfl]
    rfl
  refine ⟨?_, ?_, ?_, by with_unfolding_all rfl⟩ <;>
  · simp only [invokeFuel]
    rw [runLoop_next (by simp) h0, runLoop_next (by simp) h1,
      runLoop_next (by simp) h2, runLoop_next (by simp) h3,
      runLoop_next (by simp) h4, runLoop_next (by simp) h5,
      runLoop_term (Or.inr rfl)]
    try rfl

/-- Witness for C9: the demo's own invocation (content from
`01_complex_graphs.py`, cap 5). -/
theorem iterative_refinement_two_generates_witness :
    (invokeFuel iterPlan (iterInit "Build production AI agents" 5) 8).status =
      .done ∧
    (invokeFuel iterPlan
      (iterInit "Build production AI agents" 5) 8).trace.count "generate" = 2 ∧
    lookupField (invokeFuel iterPlan
      (iterInit "Build production AI agents" 5) 8).state "quality_score" =
      some (.vRat (qscore 2)) ∧
    (qscore 2 : ℚ) = 9/10 :=
  iterative_refinement_two_generates "Build production AI agents" 5 (by decide)